import Mathlib

/-
Verification of the smart-financial-parser normalization pipeline and
anomaly-detection engine against its specification.

The repository's `src/` tree contains `parser.py`, `validators.py` and
`utils.py`.  The normalizer module (`DateNormalizer`, `AmountNormalizer`,
`MerchantNormalizer`, `CategoryInferencer`) and the analyzer module
(`TransactionAnalyzer`) are imported by `parser.py` / `main.py` and exercised
by the test suite but their sources are not present; those components are
modelled from the specification (each such definition carries a
`Modelled from the spec:` doc comment).  Everything else is translated from
the Python sources.
-/

namespace SFP

/-! ## Character and list-of-character utilities

Python string operations (`strip`, `split`, `lower`, `upper`, `isdigit`,
`isalpha`, `replace`) are embedded as plain functions on `List Char`. -/

/-- Whitespace predicate mirroring Python `str.strip` defaults. -/
def isWs (c : Char) : Bool :=
  c = ' ' || c = '\t' || c = '\n' || c = '\r'

/-- Strip leading and trailing whitespace (Python `str.strip`). -/
def trimList (cs : List Char) : List Char :=
  ((cs.dropWhile isWs).reverse.dropWhile isWs).reverse

/-- Split a character list on a separator character (Python `str.split(sep)`). -/
def splitOnChar (sep : Char) (cs : List Char) : List (List Char) :=
  cs.foldr
    (fun c acc =>
      match acc with
      | [] => [[c]]
      | cur :: rest => if c = sep then [] :: cur :: rest else (c :: cur) :: rest)
    [[]]

/-- ASCII lower-casing of one character (Python `str.lower` on ASCII input). -/
def lowChar (c : Char) : Char :=
  if 'A' ≤ c ∧ c ≤ 'Z' then Char.ofNat (c.toNat + 32) else c

/-- ASCII upper-casing of one character (Python `str.upper` on ASCII input). -/
def upChar (c : Char) : Char :=
  if 'a' ≤ c ∧ c ≤ 'z' then Char.ofNat (c.toNat - 32) else c

/-- Numeric value of a decimal digit character. -/
def digitVal (c : Char) : Nat := c.toNat - 48

/-- Nonempty and all decimal digits (Python `str.isdigit` plus nonemptiness). -/
def allDigits (cs : List Char) : Bool :=
  !cs.isEmpty && cs.all Char.isDigit

/-- Decimal digits to a natural number (`int(s)` on a digit string). -/
def natOfDigits (cs : List Char) : Nat :=
  cs.foldl (fun n c => n * 10 + digitVal c) 0

/-- Substring containment on character lists (Python `needle in hay`). -/
def strContainsL (needle : List Char) : List Char → Bool
  | [] => needle.isEmpty
  | c :: t => needle.isPrefixOf (c :: t) || strContainsL needle t

/-! ## Data model -/

/-- Timestamp as stored on a transaction: calendar date plus time of day
(Python `datetime`; only these components are used by the pipeline). -/
structure DateTime where
  year : Nat
  month : Nat
  day : Nat
  hour : Nat := 0
  minute : Nat := 0
deriving DecidableEq, Repr

/-- Exact decimal number with value `units / 10 ^ scale`; the embedding of
Python `decimal.Decimal` as used by the pipeline.  `scale` is the number of
fractional digits (the negated exponent of the `Decimal`). -/
structure Dec where
  units : Int
  scale : Nat
deriving DecidableEq, Repr

/-- Rational value of an exact decimal. -/
def Dec.toRat (d : Dec) : ℚ := (d.units : ℚ) / (10 : ℚ) ^ d.scale

/-- String rendering of an exact decimal (Python `str(Decimal)`) used in the
amount-range error message. -/
def Dec.toDecimalString (d : Dec) : String :=
  let sign := if d.units < 0 then "-" else ""
  let ds := (toString d.units.natAbs).toList
  if d.scale = 0 then sign ++ ds.asString
  else
    let ds := if ds.length ≥ d.scale + 1 then ds
              else List.replicate (d.scale + 1 - ds.length) '0' ++ ds
    sign ++ (ds.take (ds.length - d.scale)).asString ++ "." ++
      (ds.drop (ds.length - d.scale)).asString

/-! ## DateNormalizer -/

namespace DateNormalizer

/-- Gregorian leap-year test. -/
def isLeap (y : Nat) : Bool :=
  (y % 4 = 0 && y % 100 ≠ 0) || y % 400 = 0

/-- Number of days in a month. -/
def daysInMonth (y m : Nat) : Nat :=
  if m = 2 then (if isLeap y then 29 else 28)
  else if m = 1 ∨ m = 3 ∨ m = 5 ∨ m = 7 ∨ m = 8 ∨ m = 10 ∨ m = 12 then 31
  else 30

/-- Build a timestamp from components when they form a plausible calendar
date, otherwise fail (the spec's "plausible calendar date" check). -/
def mkDate (y m d : Nat) : Option DateTime :=
  if 1 ≤ m ∧ m ≤ 12 ∧ 1 ≤ d ∧ d ≤ daysInMonth y m ∧ 1000 ≤ y ∧ y ≤ 3000 then
    some ⟨y, m, d, 0, 0⟩
  else none

/-- ISO format `YYYY-MM-DD`. -/
def tryIso (cs : List Char) : Option DateTime :=
  match splitOnChar '-' cs with
  | [y, m, d] =>
    if y.length = 4 && allDigits y && allDigits m && m.length ≤ 2
        && allDigits d && d.length ≤ 2 then
      mkDate (natOfDigits y) (natOfDigits m) (natOfDigits d)
    else none
  | _ => none

/-- Dot-separated format `YYYY.MM.DD`. -/
def tryDot (cs : List Char) : Option DateTime :=
  match splitOnChar '.' cs with
  | [y, m, d] =>
    if y.length = 4 && allDigits y && allDigits m && m.length ≤ 2
        && allDigits d && d.length ≤ 2 then
      mkDate (natOfDigits y) (natOfDigits m) (natOfDigits d)
    else none
  | _ => none

/-- Slash-separated US format `MM/DD/YYYY` with a 2-digit-year variant; the
first numeric component is the month (US convention). -/
def trySlash (cs : List Char) : Option DateTime :=
  match splitOnChar '/' cs with
  | [m, d, y] =>
    if allDigits m && m.length ≤ 2 && allDigits d && d.length ≤ 2
        && allDigits y && (y.length = 4 || y.length = 2) then
      let yv := if y.length = 2 then 2000 + natOfDigits y else natOfDigits y
      mkDate yv (natOfDigits m) (natOfDigits d)
    else none
  | _ => none

/-- Month names (full, then abbreviated) with month numbers, lowercase keys. -/
def monthFull : List (String × Nat) :=
  [("january", 1), ("february", 2), ("march", 3), ("april", 4), ("may", 5),
   ("june", 6), ("july", 7), ("august", 8), ("september", 9), ("october", 10),
   ("november", 11), ("december", 12)]

/-- Three-letter month abbreviations with month numbers, lowercase keys. -/
def monthAbbr : List (String × Nat) :=
  [("jan", 1), ("feb", 2), ("mar", 3), ("apr", 4), ("may", 5), ("jun", 6),
   ("jul", 7), ("aug", 8), ("sep", 9), ("oct", 10), ("nov", 11), ("dec", 12)]

/-- Month number from a (possibly abbreviated) month-name token. -/
def monthFromName (t : List Char) : Option Nat :=
  let k := (t.map lowChar).asString
  (monthFull.lookup k).orElse (fun _ => monthAbbr.lookup k)

/-- Drop an ordinal suffix `st`/`nd`/`rd`/`th` from a day token such as
`17th`. -/
def stripOrdinal (t : List Char) : List Char :=
  if t.length > 2 then
    let body := t.take (t.length - 2)
    let suf := (t.drop (t.length - 2)).map lowChar
    if (suf = ['s', 't'] ∨ suf = ['n', 'd'] ∨ suf = ['r', 'd'] ∨ suf = ['t', 'h'])
        && allDigits body then body
    else t
  else t

/-- Dash-separated day-month-year with abbreviated month name, `DD-Mon-YY`. -/
def tryDashMon (cs : List Char) : Option DateTime :=
  match splitOnChar '-' cs with
  | [d, mon, y] =>
    if allDigits d && d.length ≤ 2 && allDigits y && (y.length = 2 || y.length = 4) then
      match monthFromName mon with
      | some m =>
        let yv := if y.length = 2 then 2000 + natOfDigits y else natOfDigits y
        mkDate yv m (natOfDigits d)
      | none => none
    else none
  | _ => none

/-- General best-effort natural-language parse: handles ordinal day suffixes,
full and abbreviated month names, and both month-first (`Jan 15th, 2023`,
`February 9, 2023`) and day-first (`15th Jan 2023`) textual forms. -/
def tryNatural (cs : List Char) : Option DateTime :=
  let toks := (splitOnChar ' ' (cs.map (fun c => if c = ',' then ' ' else c))).filter
    (fun t => !t.isEmpty)
  match toks with
  | [a, b, c] =>
    match monthFromName a, (stripOrdinal b), c with
    | some m, d, y =>
      if allDigits d && allDigits y && y.length = 4 then
        mkDate (natOfDigits y) m (natOfDigits d)
      else none
    | none, _, _ =>
      match (stripOrdinal a), monthFromName b, c with
      | d, some m, y =>
        if allDigits d && allDigits y && y.length = 4 then
          mkDate (natOfDigits y) m (natOfDigits d)
        else none
      | _, none, _ => none
  | _ => none

/-- Modelled from the spec: `DateNormalizer.normalize` (module
`src/normalizers.py`, absent from `src/`).  Trims the input, returns `none`
for empty input, then attempts the structured formats in the spec's fixed
priority order — ISO, dot-separated, slash-separated US, dash-separated
day-month-year — falling back to a natural-language parse; returns `none`
when no strategy yields a plausible calendar date. -/
def normalize (text : String) : Option DateTime :=
  let cs := trimList text.toList
  if cs.isEmpty then none
  else
    (tryIso cs) <|> (tryDot cs) <|> (trySlash cs) <|> (tryDashMon cs) <|>
      (tryNatural cs)

end DateNormalizer

/-! ## AmountNormalizer -/

namespace AmountNormalizer

/-- Modelled from the spec: the sign-detection stage of
`AmountNormalizer.normalize` (module `src/normalizers.py`, absent from
`src/`).  Priority order on the trimmed input: parenthesis-wrapped value,
leading minus sign, trailing minus sign; first match wins.  Returns the
residual text and the negativity flag. -/
def signStage (cs : List Char) : List Char × Bool :=
  if cs.head? = some '(' ∧ cs.getLast? = some ')' ∧ cs.length ≥ 2 then
    (trimList ((cs.drop 1).dropLast), true)
  else if cs.head? = some '-' then (trimList (cs.drop 1), true)
  else if cs.getLast? = some '-' then (trimList cs.dropLast, true)
  else (cs, false)

/-- Currency symbol prefixes recognized by the normalizer. -/
def symCur (c : Char) : Option String :=
  if c = '$' then some "USD"
  else if c = '€' then some "EUR"
  else if c = '£' then some "GBP"
  else if c = '¥' then some "JPY"
  else none

/-- A whitespace-delimited token of exactly three ASCII letters. -/
def isAlpha3 (t : List Char) : Bool :=
  t.length = 3 && t.all Char.isAlpha

/-- Rejoin tokens with single spaces. -/
def joinSp (ts : List (List Char)) : List Char :=
  List.intercalate [' '] ts

/-- Modelled from the spec: the currency-detection stage of
`AmountNormalizer.normalize`.  Recognizes a symbol prefix (`$`, `€`, `£`,
`¥`) or a leading/trailing 3-letter ISO code token; returns the residual
text and the detected indicator (`none` when no indicator is present, in
which case the caller defaults to `"USD"`). -/
def currencyStage (cs : List Char) : List Char × Option String :=
  match cs with
  | [] => ([], none)
  | c :: rest =>
    match symCur c with
    | some cur => (trimList rest, some cur)
    | none =>
      let toks := (splitOnChar ' ' (c :: rest)).filter (fun t => !t.isEmpty)
      match toks with
      | [] => (c :: rest, none)
      | t :: ts =>
        if isAlpha3 t then (trimList (joinSp ts), some (t.map upChar).asString)
        else
          match toks.getLast? with
          | some lt =>
            if isAlpha3 lt then
              (trimList (joinSp toks.dropLast), some (lt.map upChar).asString)
            else (c :: rest, none)
          | none => (c :: rest, none)

/-- Parse a clean numeric literal (digits with an optional single decimal
point and optional fractional part) into integer part and the list of
fractional digit values; any residual non-numeric character fails the
parse. -/
def parseMagnitude (cs : List Char) : Option (Nat × List Nat) :=
  match splitOnChar '.' cs with
  | [i] => if allDigits i then some (natOfDigits i, []) else none
  | [i, f] =>
    if i.all Char.isDigit && f.all Char.isDigit && (!i.isEmpty || !f.isEmpty) then
      some (natOfDigits i, f.map digitVal)
    else none
  | _ => none

/-- Round/represent a parsed magnitude to exactly two fractional digits
(result in cents, rounding half-up beyond the second digit). -/
def quantize2 (intPart : Nat) (frac : List Nat) : Nat :=
  match frac with
  | [] => intPart * 100
  | [a] => intPart * 100 + a * 10
  | a :: b :: rest =>
    let cents := intPart * 100 + a * 10 + b
    match rest with
    | [] => cents
    | c :: _ => if c ≥ 5 then cents + 1 else cents

/-- The text remaining after the sign markers, the currency indicator, the
comma thousands separators and the surrounding whitespace are stripped from
the input; this is what must reduce to a clean numeric literal. -/
def residual (s : String) : List Char :=
  trimList (((currencyStage (signStage (trimList s.toList)).1).1).filter
    (fun c => !(c = ',')))

/-- Modelled from the spec: `AmountNormalizer.normalize` (module
`src/normalizers.py`, absent from `src/`).  Trims the input (empty input
yields `(none, "USD", false)`), detects the sign and the currency indicator
(defaulting to USD), strips comma thousands separators, and requires the
residual text to be a clean numeric literal — otherwise the amount is
`none`; a parsed magnitude is represented with exactly two fractional
digits. -/
def normalize (text : String) : Option Dec × String × Bool :=
  let cs := trimList text.toList
  if cs.isEmpty then (none, "USD", false)
  else
    let neg := (signStage cs).2
    let curOpt := (currencyStage (signStage cs).1).2
    let cur := curOpt.getD "USD"
    match parseMagnitude (residual text) with
    | none => (none, cur, neg)
    | some pr =>
      let cents : Int := quantize2 pr.1 pr.2
      (some ⟨if neg then -cents else cents, 2⟩, cur, neg)

end AmountNormalizer

/-! ## MerchantNormalizer -/

namespace MerchantNormalizer

/-- Sentinel identity for empty or unresolvable merchant labels. -/
def sentinel : String := "Unknown Merchant"

/-- Modelled from the spec: the static `MerchantAliasTable` — canonical
identity paired with matching patterns (lowercase), read-only at run time. -/
def aliasTable : List (String × List String) :=
  [("Uber", ["uber"]),
   ("Amazon", ["amazon", "amzn", "amz"]),
   ("Walmart", ["walmart", "wal mart"]),
   ("Target", ["target"]),
   ("CVS Pharmacy", ["cvs"]),
   ("Chipotle", ["chipotle"]),
   ("Starbucks", ["starbucks"]),
   ("Netflix", ["netflix"]),
   ("Spotify", ["spotify"]),
   ("Apple", ["apple"])]

/-- Separator characters replaced by spaces during cleaning. -/
def sepChars : List Char := ['.', '/', '-', '*', '#', '_', ',']

/-- Clean one character: separators become spaces, ASCII alphanumerics are
lower-cased, other ASCII punctuation is dropped, non-ASCII letters are kept
and symbols/emoji (code points past the basic scripts) are dropped. -/
def cleanChar (c : Char) : Option Char :=
  if c ∈ sepChars then some ' '
  else if c.isAlphanum ∨ c = ' ' then some (lowChar c)
  else if 128 ≤ c.toNat ∧ c.toNat < 0x2000 then some c
  else none

/-- Whether a token looks like a transaction identifier (contains a digit). -/
def looksLikeId (t : List Char) : Bool := t.any Char.isDigit

/-- Title-case a lowercase token. -/
def titleTok (t : List Char) : List Char :=
  match t with
  | [] => []
  | c :: rest => upChar c :: rest

/-- Modelled from the spec: the cleaning phase of
`MerchantNormalizer.normalize` — case-fold, strip separators, punctuation
and emoji, and drop a trailing transaction-identifier token. -/
def cleanTokens (text : String) : List (List Char) :=
  let toks := (splitOnChar ' ' (text.toList.filterMap cleanChar)).filter
    (fun t => !t.isEmpty)
  match toks.getLast? with
  | some lt => if looksLikeId lt then toks.dropLast else toks
  | none => toks

/-- Modelled from the spec: `MerchantNormalizer.normalize` (module
`src/normalizers.py`, absent from `src/`).  Empty/whitespace-only input maps
to the `"Unknown Merchant"` sentinel; otherwise the cleaned string is
matched against the alias table (a known pattern contained in the cleaned
string selects its canonical identity) and an unmatched merchant is returned
as its own title-cased canonical identity. -/
def normalize (text : String) : String :=
  let toks := cleanTokens text
  let cleaned := AmountNormalizer.joinSp toks
  if cleaned.isEmpty then sentinel
  else
    match aliasTable.find? (fun p => p.2.any (fun pat => strContainsL pat.toList cleaned)) with
    | some p => p.1
    | none => (AmountNormalizer.joinSp (toks.map titleTok)).asString

end MerchantNormalizer

/-! ## CategoryInferencer -/

namespace CategoryInferencer

/-- Modelled from the spec: the static `CategoryKeywordTable` — category
paired with keyword substrings matched case-insensitively against the
canonical merchant identity, in fixed priority order. -/
def categoryKeywordTable : List (String × List String) :=
  [("Food", ["starbucks", "chipotle", "mcdonald", "restaurant", "pizza", "coffee"]),
   ("Transportation", ["uber", "lyft", "shell", "gas", "delta", "airlines"]),
   ("Shopping", ["amazon", "walmart", "target"]),
   ("Technology", ["apple", "aws", "microsoft", "google"]),
   ("Entertainment", ["netflix", "spotify", "hulu"]),
   ("Health", ["cvs", "pharmacy", "walgreens"])]

/-- Modelled from the spec: `CategoryInferencer.infer` (module
`src/normalizers.py`, absent from `src/`).  A non-empty (after trimming)
explicit category is returned unchanged; otherwise the lower-cased canonical
merchant is tested against the keyword table in priority order, and no match
yields the `"Uncategorized"` sentinel. -/
def infer (canonical_merchant explicit_category : String) : String :=
  if (trimList explicit_category.toList).isEmpty = false then explicit_category
  else
    match categoryKeywordTable.find?
        (fun p => p.2.any
          (fun k => strContainsL k.toList (canonical_merchant.toList.map lowChar))) with
    | some p => p.1
    | none => "Uncategorized"

end CategoryInferencer

/-! ## Validation schemas (from `src/src/validators.py`) -/

/-- Raw, unvalidated transaction data from a CSV row
(`RawTransaction` in `src/src/validators.py`). -/
structure RawTransaction where
  date : String
  merchant_name : String
  amount : String
  category : String
deriving DecidableEq, Repr

/-- Construction of a `RawTransaction`: whitespace is stripped from every
field (`str_strip_whitespace`), an empty date or amount raises a validation
error, and an empty merchant name defaults to `"UNKNOWN_MERCHANT"`
(field validators in `src/src/validators.py`). -/
def mkRawTransaction (date merchant_name amount category : String) :
    Except String RawTransaction :=
  let d := (trimList date.toList).asString
  if d = "" then .error "Date cannot be empty"
  else
    let m := (trimList merchant_name.toList).asString
    let m := if m = "" then "UNKNOWN_MERCHANT" else m
    let a := (trimList amount.toList).asString
    if a = "" then .error "Amount cannot be empty"
    else .ok ⟨d, m, a, (trimList category.toList).asString⟩

/-- Decidable equality of validation outcomes, used to evaluate the
embedding on concrete inputs. -/
instance instDecEqExcept {ε α : Type} [DecidableEq ε] [DecidableEq α] :
    DecidableEq (Except ε α)
  | .ok a, .ok b =>
    if h : a = b then .isTrue (congrArg Except.ok h)
    else .isFalse (fun hc => h (Except.ok.inj hc))
  | .error a, .error b =>
    if h : a = b then .isTrue (congrArg Except.error h)
    else .isFalse (fun hc => h (Except.error.inj hc))
  | .ok _, .error _ => .isFalse (fun hc => Except.noConfusion hc)
  | .error _, .ok _ => .isFalse (fun hc => Except.noConfusion hc)

/-- Normalized, validated transaction data
(`CleanTransaction` in `src/src/validators.py`). -/
structure CleanTransaction where
  date : DateTime
  merchant_name : String
  normalized_merchant : String
  amount : Dec
  currency : String := "USD"
  category : String := "Uncategorized"
  is_refund : Bool := false
  is_anomaly : Bool := false
  anomaly_reason : Option String := none
deriving DecidableEq, Repr

/-- The names of the fields of `CleanTransaction`, in declaration order,
as they appear in `src/src/validators.py`. -/
def cleanTransactionFieldNames : List String :=
  ["date", "merchant_name", "normalized_merchant", "amount", "currency",
   "category", "is_refund", "is_anomaly", "anomaly_reason"]

/-- Merchant-name sanitization: the characters `<`, `>`, `"`, `'`, `\`, `;`
are removed and the result is stripped
(`CleanTransaction.sanitize_merchant_name`). -/
def sanitizeMerchantName (v : String) : String :=
  (trimList (v.toList.filter
    (fun c => !(c = '<' || c = '>' || c = '"' || c = Char.ofNat 39 ||
                c = '\\' || c = ';')))).asString

/-- The `^[A-Z]{3}$` pattern on the currency field. -/
def currencyPatternOk (s : String) : Bool :=
  s.toList.length = 3 && s.toList.all (fun c => 'A' ≤ c ∧ c ≤ 'Z')

/-- Construction of a `CleanTransaction`: field constraints are checked in
declaration order — merchant-name length 1..200, normalized-merchant length
1..100, amount with at most two decimal places (`decimal_places=2`) and
absolute value at most 999999.99 (`validate_amount_range`; the source's
check `abs(v) > 999999.99` is stated here on the integer representation of
the decimal, and `amountRange_iff` below proves the two formulations
equivalent), currency matching `^[A-Z]{3}$` — and the merchant name is
sanitized.  `is_anomaly` defaults to `false` and `anomaly_reason` to
`none`. -/
def mkCleanTransaction (date : DateTime) (merchant_name normalized_merchant : String)
    (amount : Dec) (currency category : String) (is_refund : Bool) :
    Except String CleanTransaction :=
  if ¬ (1 ≤ merchant_name.toList.length ∧ merchant_name.toList.length ≤ 200) then
    .error "merchant_name: length constraint violated"
  else if ¬ (1 ≤ normalized_merchant.toList.length ∧ normalized_merchant.toList.length ≤ 100) then
    .error "normalized_merchant: length constraint violated"
  else if ¬ (amount.scale ≤ 2) then
    .error "amount: decimal_places constraint violated"
  else if 99999999 * 10 ^ amount.scale < |amount.units| * 100 then
    .error ("Amount " ++ amount.toDecimalString ++ " exceeds maximum allowed value")
  else if ¬ (currencyPatternOk currency = true) then
    .error "currency: string does not match pattern"
  else
    .ok { date := date, merchant_name := sanitizeMerchantName merchant_name,
          normalized_merchant := normalized_merchant, amount := amount,
          currency := currency, category := category, is_refund := is_refund }

/-! ## FinancialParser (from `src/src/parser.py`) -/

/-- One input row's field strings, as extracted by
`FinancialParser.parse_transaction` via `row.get('Date', '')`,
`row.get('Merchant', row.get('Merchant Name', ''))`, `row.get('Amount', '')`
and `row.get('Category', '')`. -/
structure Row where
  date : String
  merchant : String
  amount : String
  category : String
deriving DecidableEq, Repr

/-- The parser's accumulated statistics (`self.stats` in
`src/src/parser.py`; the `performance` sub-dictionary holds only timing
metrics and is not modelled). -/
structure ParserStats where
  total_rows : Nat := 0
  successful_parses : Nat := 0
  failed_parses : Nat := 0
  normalizations : Nat := 0
  errors : List String := []
deriving DecidableEq, Repr

/-- The body of the `try` block of `FinancialParser.parse_transaction`:
validate the raw row, normalize the date (a `None` date raises
`Could not parse date`), normalize the amount (a `None` amount raises
`Could not parse amount`), normalize the merchant, infer the category, and
construct the `CleanTransaction`.  Returns the outcome together with the
number of `normalizations` counter increments performed (the counter is
incremented at the merchant step, before construction). -/
def parseCore (r : Row) : Except String CleanTransaction × Nat :=
  match mkRawTransaction r.date r.merchant r.amount r.category with
  | .error e => (.error e, 0)
  | .ok raw =>
    match DateNormalizer.normalize raw.date with
    | none => (.error ("Could not parse date: " ++ raw.date), 0)
    | some nd =>
      match AmountNormalizer.normalize raw.amount with
      | (none, _, _) => (.error ("Could not parse amount: " ++ raw.amount), 0)
      | (some amt, cur, neg) =>
        match mkCleanTransaction nd raw.merchant_name
            (MerchantNormalizer.normalize raw.merchant_name) amt cur
            (CategoryInferencer.infer (MerchantNormalizer.normalize raw.merchant_name)
              raw.category) neg with
        | .error e => (.error e, 1)
        | .ok t => (.ok t, 1)

/-- `FinancialParser.parse_transaction`: runs `parseCore` under the
`try/except`; a success increments `successful_parses` and returns the clean
transaction, any failure increments `failed_parses`, appends the single
entry `"Row {row_num}: {cause}"` to `errors`, and returns `none`. -/
def parse_transaction (stats : ParserStats) (r : Row) (row_num : Nat) :
    Option CleanTransaction × ParserStats :=
  match parseCore r with
  | (.ok t, k) =>
    (some t,
     { stats with normalizations := stats.normalizations + k,
                  successful_parses := stats.successful_parses + 1 })
  | (.error e, k) =>
    (none,
     { stats with normalizations := stats.normalizations + k,
                  failed_parses := stats.failed_parses + 1,
                  errors := stats.errors ++ ["Row " ++ toString row_num ++ ": " ++ e] })

/-- The row loop of `FinancialParser.parse_file`: each row is parsed in
order with its row number, successes are collected, and processing always
continues with the remaining rows. -/
def parseRows (stats : ParserStats) : List Row → Nat → List CleanTransaction × ParserStats
  | [], _ => ([], stats)
  | r :: rest, n =>
    match parse_transaction stats r n with
    | (some t, stats') =>
      let p := parseRows stats' rest (n + 1)
      (t :: p.1, p.2)
    | (none, stats') => parseRows stats' rest (n + 1)

/-- `FinancialParser.parse_file` on an already-loaded batch of rows:
`total_rows` is the row count and row numbering starts at 2 (`idx + 2`,
accounting for the CSV header row). -/
def parse_file (rows : List Row) : List CleanTransaction × ParserStats :=
  parseRows { total_rows := rows.length } rows 2

/-- The clean-transaction outcome of one row, ignoring statistics. -/
def parseOk? (r : Row) : Option CleanTransaction :=
  match parseCore r with
  | (.ok t, _) => some t
  | (.error _, _) => none

/-- The single failure entry a row contributes to the error list
(`none` for a row that parses successfully). -/
def rowFailureMsg (r : Row) (n : Nat) : Option String :=
  match parseCore r with
  | (.error e, _) => some ("Row " ++ toString n ++ ": " ++ e)
  | (.ok _, _) => none

/-- The error entries a batch accumulates, one per failing row, in order,
numbered from `n`. -/
def expectedErrors : List Row → Nat → List String
  | [], _ => []
  | r :: rest, n => (rowFailureMsg r n).toList ++ expectedErrors rest (n + 1)

/-! ## TransactionAnalyzer (module `src/analyzer.py`, absent from `src/`) -/

/-- Amount of a transaction in cents.  Every amount reaching the analyzer
passed the `decimal_places=2` validation, so `scale ≤ 2` and this is the
exact decimal value times 100 (it also realizes Python `Decimal` numeric
equality, under which trailing zeros are insignificant). -/
def Dec.cents (d : Dec) : Int := d.units * 10 ^ (2 - d.scale)

namespace TransactionAnalyzer

/-- Modelled from the spec: the analyzer's closed severity enumeration with
the total priority order CRITICAL > HIGH > MEDIUM > LOW > INFO > NONE
(exposed by the analyzer as `SEVERITY_CRITICAL` … `SEVERITY_INFO`). -/
inductive Severity where
  | CRITICAL
  | HIGH
  | MEDIUM
  | LOW
  | INFO
  | NONE
deriving DecidableEq, Repr

/-- The batch's transaction amounts, in cents, in batch order. -/
def amountsC (ts : List CleanTransaction) : List Int :=
  ts.map (fun t => t.amount.cents)

/-- The test `|z| ≥ (mp / mq) * T` for `z = (x - μ) / σ`, written with
integer cross-multiplied squares (μ = S/n, σ² = dev2/n³ where
`dev2 = Σ (n*y - S)²`), avoiding square roots and rational division. -/
def zAtLeast (mp mq : Int) (T : ℚ) (n S dev2 x : Int) : Bool :=
  (mp * T.num) ^ 2 * dev2 ≤ (mq * (T.den : Int)) ^ 2 * (n * (n * x - S) ^ 2)

/-- Modelled from the spec (§4.5 signal 1): the statistical-outlier signal.
Population mean μ and standard deviation σ of the batch amounts; σ = 0
(equivalently `dev2 = 0`) means the signal never fires, avoiding
divide-by-zero; otherwise |z| ≥ 2T ⇒ CRITICAL, |z| ≥ 1.5T ⇒ HIGH,
|z| ≥ T ⇒ MEDIUM, below T no fire. -/
def statOutlierCandidate (T : ℚ) (xs : List Int) (x : Int) :
    Option (Severity × String) :=
  let n : Int := xs.length
  let S : Int := xs.sum
  let dev2 : Int := (xs.map (fun y => (n * y - S) ^ 2)).sum
  if dev2 = 0 then none
  else if zAtLeast 2 1 T n S dev2 x then
    some (.CRITICAL, "Statistical outlier (CRITICAL): amount is far outside the batch distribution")
  else if zAtLeast 3 2 T n S dev2 x then
    some (.HIGH, "Statistical outlier (HIGH): amount is well outside the batch distribution")
  else if zAtLeast 1 1 T n S dev2 x then
    some (.MEDIUM, "Statistical outlier (MEDIUM): amount is outside the batch distribution")
  else none

/-- Modelled from the spec (§4.5 signal 2): the adaptive large-transaction
signal.  A batch average above $50,000 selects the enterprise tiers
$500K/$200K/$100K, otherwise the retail tiers $5K/$2K/$1K; amounts are in
cents and the average comparison is cross-multiplied. -/
def largeCandidate (xs : List Int) (x : Int) : Option (Severity × String) :=
  let n : Int := xs.length
  let S : Int := xs.sum
  let enterprise := 5000000 * n < S
  let tc : Int := if enterprise then 50000000 else 500000
  let th : Int := if enterprise then 20000000 else 200000
  let tm : Int := if enterprise then 10000000 else 100000
  if x ≥ tc then some (.CRITICAL, "Large purchase (CRITICAL): amount outside your normal range")
  else if x ≥ th then some (.HIGH, "Large purchase (HIGH): amount outside your normal range")
  else if x ≥ tm then some (.MEDIUM, "Large purchase (MEDIUM): amount outside your normal range")
  else none

/-- The grouping key of the duplicate signal: canonical merchant, amount,
calendar date. -/
def dupKey (t : CleanTransaction) : String × Int × (Nat × Nat × Nat) :=
  (t.normalized_merchant, t.amount.cents, (t.date.year, t.date.month, t.date.day))

/-- The reason attached by the duplicate signal. -/
def dupReason : String :=
  "Possible duplicate transaction (MEDIUM): same merchant, amount, and date"

/-- Modelled from the spec (§4.5 signal 3): the duplicate-detection signal.
Transactions are grouped by (canonical merchant, amount, calendar date);
the first occurrence of a key in original batch order is not flagged, every
subsequent occurrence is flagged MEDIUM with a reason citing duplicate
detection. -/
def duplicateCandidate (ts : List CleanTransaction) (i : Nat) :
    Option (Severity × String) :=
  match ts[i]? with
  | none => none
  | some t =>
    if (ts.take i).any (fun u => decide (dupKey u = dupKey t)) then
      some (.MEDIUM, dupReason)
    else none

/-- Minute timestamp on an idealized calendar, used only for velocity
window membership. -/
def timeMinutes (d : DateTime) : Nat :=
  (((d.year * 12 + d.month) * 31 + d.day) * 24 + d.hour) * 60 + d.minute

/-- Modelled from the spec (§4.5 signal 4, §9): the velocity policy window
in minutes, a policy constant. -/
def velocityWindowMinutes : Nat := 240

/-- Modelled from the spec: minimum batch size for the velocity signal to
engage, a policy constant. -/
def velocityMinBatch : Nat := 5

/-- Modelled from the spec: the fixed multiple of a typical single
transaction that a window's sum must exceed, a policy constant. -/
def velocityMultiple : Int := 5

/-- Modelled from the spec (§4.5 signal 4): the spending-velocity signal.
Below the minimum batch size it does not fire; otherwise the amounts within
the rolling window around the transaction are summed and compared (via
cross-multiplication) against a fixed multiple of the batch's typical
single-transaction amount, flagging MEDIUM or LOW by magnitude. -/
def velocityCandidate (ts : List CleanTransaction) (i : Nat) :
    Option (Severity × String) :=
  if ts.length < velocityMinBatch then none
  else
    match ts[i]? with
    | none => none
    | some t =>
      let n : Int := ts.length
      let S : Int := (amountsC ts).sum
      let w := ts.filter
        (fun u => Nat.dist (timeMinutes u.date) (timeMinutes t.date) ≤ velocityWindowMinutes)
      let wsum : Int := (amountsC w).sum
      if 2 * velocityMultiple * S < n * wsum then
        some (.MEDIUM, "Rapid spending velocity (MEDIUM): unusually large spend in a short window")
      else if velocityMultiple * S < n * wsum then
        some (.LOW, "Rapid spending velocity (LOW): elevated spend in a short window")
      else none

/-- The per-day grouping key. -/
def dayKey (t : CleanTransaction) : Nat × Nat × Nat :=
  (t.date.year, t.date.month, t.date.day)

/-- Distinct canonical merchants transacted against on a given day. -/
def distinctMerchantsOn (ts : List CleanTransaction) (k : Nat × Nat × Nat) : Nat :=
  (((ts.filter (fun u => decide (dayKey u = k))).map
    (fun u => u.normalized_merchant)).dedup).length

/-- Modelled from the spec (§4.5 signal 5): the merchant-diversity signal.
A day whose distinct-merchant count substantially exceeds the batch's
typical per-day diversity (at least triple the per-day average, and at
least five) flags the day's transactions LOW. -/
def diversityCandidate (ts : List CleanTransaction) (i : Nat) :
    Option (Severity × String) :=
  match ts[i]? with
  | none => none
  | some t =>
    let days := (ts.map dayKey).dedup
    let total := (days.map (fun k => distinctMerchantsOn ts k)).sum
    let c := distinctMerchantsOn ts (dayKey t)
    if 5 ≤ c ∧ 3 * total ≤ c * days.length then
      some (.LOW, "Unusual merchant diversity (LOW): many distinct merchants in one day")
    else none

/-- The first fired candidate in priority order. -/
def firstSome : List (Option (Severity × String)) → Option (Severity × String)
  | [] => none
  | some c :: _ => some c
  | none :: rest => firstSome rest

/-- The five candidate signals for one transaction, in the spec's priority
order: statistical outlier > large transaction > duplicate > velocity >
merchant diversity. -/
def candidates (T : ℚ) (ts : List CleanTransaction) (i : Nat)
    (t : CleanTransaction) : List (Option (Severity × String)) :=
  [statOutlierCandidate T (amountsC ts) t.amount.cents,
   largeCandidate (amountsC ts) t.amount.cents,
   duplicateCandidate ts i,
   velocityCandidate ts i,
   diversityCandidate ts i]

/-- Annotate one transaction with its highest-priority fired candidate (if
any): `is_anomaly` is set and the reason (which carries the severity label)
is stored; a transaction with no fired signal is left unchanged. -/
def applyAnomaly (t : CleanTransaction) :
    Option (Severity × String) → CleanTransaction
  | none => t
  | some c => { t with is_anomaly := true, anomaly_reason := some c.2 }

/-- Modelled from the spec: the anomaly-detection pass of
`TransactionAnalyzer.analyze` (module `src/analyzer.py`, absent from
`src/`).  Operates once per fully-normalized batch: each transaction keeps
only its highest-priority fired signal and only the anomaly annotation
fields are written.  `T` is the configurable `z_score_threshold`
(default 3.0). -/
def analyze (T : ℚ) (ts : List CleanTransaction) : List CleanTransaction :=
  ts.mapIdx (fun i t => applyAnomaly t (firstSome (candidates T ts i t)))

end TransactionAnalyzer

/-! ## Concrete batches used to instantiate the general theorems -/

/-- A normal retail transaction that fires no signal. -/
def normalTxn : CleanTransaction :=
  ⟨⟨2023, 1, 1, 0, 0⟩, "Store", "Store", ⟨5000, 2⟩, "USD", "Shopping",
   false, false, none⟩

/-- A zero-variance batch: ten transactions of identical amount $50.00. -/
def tenIdenticalBatch : List CleanTransaction := List.replicate 10 normalTxn

/-- The duplicated $100.00 transaction of the duplicate-detection test. -/
def dupTxn : CleanTransaction :=
  ⟨⟨2023, 1, 1, 0, 0⟩, "Store", "Store", ⟨10000, 2⟩, "USD", "Shopping",
   false, false, none⟩

/-- The distinct-date transaction of the duplicate-detection test. -/
def otherTxn : CleanTransaction :=
  ⟨⟨2023, 1, 2, 0, 0⟩, "Other Store", "Other Store", ⟨5000, 2⟩, "USD", "Shopping",
   false, false, none⟩

/-- The duplicate-detection test batch: two identical (merchant, amount,
date) transactions followed by one with a distinct date. -/
def dupBatch : List CleanTransaction := [dupTxn, dupTxn, otherTxn]

/-- A well-formed input row that parses successfully. -/
def goodRow : Row := ⟨"2023-01-15", "Amazon", "$45.99", "Shopping"⟩

/-- The clean transaction produced by `goodRow`. -/
def goodTxn : CleanTransaction :=
  ⟨⟨2023, 1, 15, 0, 0⟩, "Amazon", "Amazon", ⟨4599, 2⟩, "USD", "Shopping",
   false, false, none⟩

/-- A row whose amount string is not numeric. -/
def badAmountRow : Row := ⟨"2023-01-16", "Store", "abc", ""⟩

/-- A two-row batch with one good row and one bad-amount row. -/
def demoRows : List Row := [goodRow, badAmountRow]

/-- A row whose amount parses to $1,000,000.00, above the validation
maximum. -/
def hugeAmountRow : Row := ⟨"2023-01-15", "Store", "$1,000,000.00", ""⟩

/-! ## Supporting lemmas -/

/-- The integer-form amount-range check used in `mkCleanTransaction` is
exactly the source's `abs(v) > 999999.99`, read on the decimal's rational
value. -/
theorem amountRange_iff (d : Dec) :
    (99999999 * 10 ^ d.scale < |d.units| * 100) ↔ |d.toRat| > (999999.99 : ℚ) := by
  have hp : (0 : ℚ) < (10 : ℚ) ^ d.scale := by positivity
  have h99 : (999999.99 : ℚ) = 99999999 / 100 := by norm_num
  unfold Dec.toRat
  rw [gt_iff_lt, h99, abs_div, abs_of_pos hp, div_lt_div_iff₀ (by norm_num) hp,
    ← Int.cast_abs]
  constructor <;> intro h <;> exact_mod_cast h

/-- A successful amount parse always carries exactly two fractional
digits. -/
theorem amountNormalizer_scale_two {s : String} {d : Dec} {c : String} {b : Bool}
    (h : AmountNormalizer.normalize s = (some d, c, b)) : d.scale = 2 := by
  simp only [AmountNormalizer.normalize] at h
  split at h
  · exact absurd h (by simp)
  · split at h
    · exact absurd h (by simp)
    · simp only [Prod.mk.injEq, Option.some.injEq] at h
      obtain ⟨h1, -, -⟩ := h
      rw [← h1]

/-- A successfully constructed clean transaction keeps the supplied amount
and currency, the currency passed the `^[A-Z]{3}$` check, and the amount
passed the range check. -/
theorem mkClean_ok_props {dt : DateTime} {mn nm : String} {amt : Dec}
    {cur cat : String} {rf : Bool} {t : CleanTransaction}
    (h : mkCleanTransaction dt mn nm amt cur cat rf = .ok t) :
    t.amount = amt ∧ t.currency = cur ∧ currencyPatternOk cur = true ∧
    ¬ (99999999 * 10 ^ amt.scale < |amt.units| * 100) := by
  unfold mkCleanTransaction at h
  split at h
  · exact absurd h (by simp)
  split at h
  · exact absurd h (by simp)
  split at h
  · exact absurd h (by simp)
  split at h
  · exact absurd h (by simp)
  split at h
  · exact absurd h (by simp)
  rename_i h1 h2 h3 h4 h5
  have ht := Except.ok.inj h
  refine ⟨by rw [← ht], by rw [← ht], of_not_not h5, h4⟩

/-- An amount that fails the range check makes clean-transaction
construction fail, whatever the other fields are. -/
theorem mkClean_range_error {dt : DateTime} {mn nm : String} {amt : Dec}
    {cur cat : String} {rf : Bool}
    (h : 99999999 * 10 ^ amt.scale < |amt.units| * 100) :
    ∃ e, mkCleanTransaction dt mn nm amt cur cat rf = .error e := by
  cases hmk : mkCleanTransaction dt mn nm amt cur cat rf with
  | error e => exact ⟨e, rfl⟩
  | ok t => exact absurd h (mkClean_ok_props hmk).2.2.2

/-- A successful `parseCore` outcome has a two-fractional-digit amount and
a pattern-valid currency. -/
theorem parseCore_ok_props {r : Row} {t : CleanTransaction} {k : Nat}
    (h : parseCore r = (.ok t, k)) :
    t.amount.scale = 2 ∧ currencyPatternOk t.currency = true := by
  unfold parseCore at h
  split at h
  · exact absurd h (by simp)
  · split at h
    · exact absurd h (by simp)
    · split at h
      · exact absurd h (by simp)
      · rename_i heqAmt
        split at h
        · exact absurd h (by simp)
        · rename_i heqMk
          simp only [Prod.mk.injEq, Except.ok.injEq] at h
          obtain ⟨rfl, -⟩ := h
          obtain ⟨ha, hc, hpat, -⟩ := mkClean_ok_props heqMk
          refine ⟨?_, ?_⟩
          · rw [ha]; exact amountNormalizer_scale_two heqAmt
          · rw [hc]; exact hpat

/-- `parseOk?` determined by `parseCore`, success case. -/
theorem parseOk?_ok {r : Row} {t : CleanTransaction} {k : Nat}
    (h : parseCore r = (.ok t, k)) : parseOk? r = some t := by
  simp [parseOk?, h]

/-- `parseOk?` determined by `parseCore`, failure case. -/
theorem parseOk?_err {r : Row} {e : String} {k : Nat}
    (h : parseCore r = (.error e, k)) : parseOk? r = none := by
  simp [parseOk?, h]

/-- `rowFailureMsg` determined by `parseCore`, success case. -/
theorem rowFailureMsg_ok {r : Row} {t : CleanTransaction} {k : Nat} {n : Nat}
    (h : parseCore r = (.ok t, k)) : rowFailureMsg r n = none := by
  simp [rowFailureMsg, h]

/-- `rowFailureMsg` determined by `parseCore`, failure case. -/
theorem rowFailureMsg_err {r : Row} {e : String} {k : Nat} {n : Nat}
    (h : parseCore r = (.error e, k)) :
    rowFailureMsg r n = some ("Row " ++ toString n ++ ": " ++ e) := by
  simp [rowFailureMsg, h]

/-- Closed form of the parse loop: the successes are the rows accepted by
`parseOk?` in order, the counters advance by the success/failure counts,
and the error list gains exactly the per-row failure entries. -/
theorem parseRows_eq (rows : List Row) : ∀ (stats : ParserStats) (n : Nat),
    parseRows stats rows n =
      (rows.filterMap parseOk?,
       { total_rows := stats.total_rows,
         successful_parses :=
           stats.successful_parses + (rows.filterMap parseOk?).length,
         failed_parses :=
           stats.failed_parses + (rows.length - (rows.filterMap parseOk?).length),
         normalizations :=
           stats.normalizations + (rows.map (fun r => (parseCore r).2)).sum,
         errors := stats.errors ++ expectedErrors rows n }) := by
  induction rows with
  | nil => intro stats n; simp [parseRows, expectedErrors]
  | cons r rest ih =>
    intro stats n
    have hle := List.length_filterMap_le parseOk? rest
    cases hr : parseCore r with
    | mk res k =>
      cases res with
      | ok t =>
        simp only [parseRows, parse_transaction, hr]
        rw [ih]
        simp [List.filterMap_cons, parseOk?_ok hr, expectedErrors,
          rowFailureMsg_ok hr, hr, Prod.mk.injEq, ParserStats.mk.injEq]
        omega
      | error e =>
        simp only [parseRows, parse_transaction, hr]
        rw [ih]
        simp [List.filterMap_cons, parseOk?_err hr, expectedErrors,
          rowFailureMsg_err hr, hr, Prod.mk.injEq, ParserStats.mk.injEq,
          List.append_assoc]
        omega

/-- The error list has exactly one entry per failing row. -/
theorem length_expectedErrors (rows : List Row) : ∀ n : Nat,
    (expectedErrors rows n).length =
      rows.length - (rows.filterMap parseOk?).length := by
  induction rows with
  | nil => intro n; simp [expectedErrors]
  | cons r rest ih =>
    intro n
    have hle := List.length_filterMap_le parseOk? rest
    cases hr : parseCore r with
    | mk res k =>
      cases res with
      | ok t =>
        simp only [expectedErrors, rowFailureMsg_ok hr, Option.toList,
          List.nil_append, ih, List.filterMap_cons, parseOk?_ok hr,
          List.length_cons]
        omega
      | error e =>
        simp only [expectedErrors, rowFailureMsg_err hr, Option.toList,
          List.singleton_append, List.length_cons, ih, List.filterMap_cons,
          parseOk?_err hr]
        omega

/-- Every accumulated error entry is a row-numbered failure message for a
row of the batch. -/
theorem mem_expectedErrors (rows : List Row) : ∀ (n : Nat) (e : String),
    e ∈ expectedErrors rows n →
    ∃ m cause, n ≤ m ∧ m < n + rows.length ∧
      e = "Row " ++ toString m ++ ": " ++ cause := by
  induction rows with
  | nil => intro n e h; simp [expectedErrors] at h
  | cons r rest ih =>
    intro n e h
    simp only [expectedErrors, List.mem_append] at h
    cases h with
    | inl h =>
      cases hr : parseCore r with
      | mk res k =>
        cases res with
        | ok t =>
          rw [rowFailureMsg_ok hr] at h
          simp at h
        | error c =>
          rw [rowFailureMsg_err hr] at h
          simp only [Option.toList, List.mem_singleton] at h
          exact ⟨n, c, le_refl n, by simp, h⟩
    | inr h =>
      obtain ⟨m, cause, h1, h2, h3⟩ := ih (n + 1) e h
      exact ⟨m, cause, by omega, by simp at h2 ⊢; omega, h3⟩

/-- Membership in a list prefix is existence of an earlier index. -/
theorem mem_take_iff {α : Type} (l : List α) (i : Nat) (u : α) :
    u ∈ l.take i ↔ ∃ j, j < i ∧ l[j]? = some u := by
  constructor
  · intro h
    obtain ⟨j, hj⟩ := List.mem_iff_getElem?.mp h
    rw [List.getElem?_take] at hj
    split at hj
    · exact ⟨j, by assumption, hj⟩
    · exact absurd hj (by simp)
  · rintro ⟨j, hji, hj⟩
    exact List.mem_iff_getElem?.mpr ⟨j, by rw [List.getElem?_take_of_lt hji]; exact hj⟩

/-- The sum of a constant list. -/
theorem list_sum_allEq (xs : List Int) (c : Int) (h : ∀ x ∈ xs, x = c) :
    xs.sum = xs.length * c := by
  induction xs with
  | nil => simp
  | cons a tail ih =>
    have ha : a = c := h a (by simp)
    have ht : ∀ x ∈ tail, x = c := fun x hx => h x (by simp [hx])
    simp only [List.sum_cons, List.length_cons, ih ht, ha]
    push_cast
    ring

/-- A batch of identical amounts has zero squared deviation, the integer
witness of σ = 0. -/
theorem dev2_zero (xs : List Int) (h : ∀ a ∈ xs, ∀ b ∈ xs, a = b) :
    (xs.map (fun y => ((xs.length : Int) * y - xs.sum) ^ 2)).sum = 0 := by
  cases xs with
  | nil => simp
  | cons a tail =>
    have hall : ∀ x ∈ a :: tail, x = a := fun x hx => h x hx a (by simp)
    have hsum : (a :: tail).sum = ((a :: tail).length : Int) * a :=
      list_sum_allEq _ a hall
    apply List.sum_eq_zero
    intro z hz
    obtain ⟨y, hy, rfl⟩ := List.mem_map.mp hz
    have hya : y = a := hall y hy
    subst hya
    rw [hsum]
    ring

/-! ## Claims -/

/-- C6: `DateNormalizer.normalize` maps every supported representation of
the same calendar date to that date — the inputs `"2023-01-15"`,
`"01/15/2023"`, `"2023.01.15"` and `"Jan 15th, 2023"` all yield year 2023,
month 1, day 15. -/
theorem c6_date_formats_same_day :
    DateNormalizer.normalize "2023-01-15" = some ⟨2023, 1, 15, 0, 0⟩ ∧
    DateNormalizer.normalize "01/15/2023" = some ⟨2023, 1, 15, 0, 0⟩ ∧
    DateNormalizer.normalize "2023.01.15" = some ⟨2023, 1, 15, 0, 0⟩ ∧
    DateNormalizer.normalize "Jan 15th, 2023" = some ⟨2023, 1, 15, 0, 0⟩ := by
  decide

/-- C7: `AmountNormalizer.normalize` extracts sign and magnitude
independently of the sign's position — `"($45.99)"`, `"-45.99"` and
`"45.99-"` all yield the exact decimal -45.99 with `is_negative = true`,
and `"$2,500.00"` yields 2500.00 with currency USD and
`is_negative = false`. -/
theorem c7_amount_sign_positions :
    AmountNormalizer.normalize "($45.99)" = (some ⟨-4599, 2⟩, "USD", true) ∧
    AmountNormalizer.normalize "-45.99" = (some ⟨-4599, 2⟩, "USD", true) ∧
    AmountNormalizer.normalize "45.99-" = (some ⟨-4599, 2⟩, "USD", true) ∧
    AmountNormalizer.normalize "$2,500.00" = (some ⟨250000, 2⟩, "USD", false) ∧
    Dec.toRat ⟨-4599, 2⟩ = -45.99 ∧ Dec.toRat ⟨250000, 2⟩ = 2500 := by
  refine ⟨by decide, by decide, by decide, by decide, ?_, ?_⟩ <;>
    · unfold Dec.toRat
      norm_num

/-- C8: `AmountNormalizer.normalize` never extracts a numeric substring out
of free prose — whenever the input, after stripping sign markers, the
currency indicator, comma thousands separators and surrounding whitespace,
does not reduce to a clean numeric literal, the amount is `none`; and empty
input yields `(none, "USD", false)`, never a fabricated zero. -/
theorem c8_no_prose_extraction :
    (∀ s : String, (trimList s.toList).isEmpty = false →
      AmountNormalizer.parseMagnitude (AmountNormalizer.residual s) = none →
      (AmountNormalizer.normalize s).1 = none) ∧
    AmountNormalizer.normalize "" = (none, "USD", false) := by
  constructor
  · intro s h1 h2
    have h1' : ¬ (trimList s.data = []) := by simpa using h1
    simp [AmountNormalizer.normalize, h2]
    rw [if_neg h1']
  · decide

/-- C8 witness: the prose input `"crushing it: $45.99"` has a non-numeric
residual and therefore yields a `none` amount. -/
theorem c8_witness :
    (trimList "crushing it: $45.99".toList).isEmpty = false ∧
    AmountNormalizer.parseMagnitude (AmountNormalizer.residual "crushing it: $45.99") = none ∧
    (AmountNormalizer.normalize "crushing it: $45.99").1 = none :=
  ⟨by decide, by decide,
   c8_no_prose_extraction.1 "crushing it: $45.99" (by decide) (by decide)⟩

/-- C9: `CategoryInferencer.infer` returns the explicit category unchanged
whenever it is non-empty after trimming, and for an empty explicit category
with a merchant matching no keyword set it returns the fixed sentinel
`"Uncategorized"`. -/
theorem c9_category_inference :
    (∀ m c : String, (trimList c.toList).isEmpty = false →
      CategoryInferencer.infer m c = c) ∧
    (∀ m c : String, (trimList c.toList).isEmpty = true →
      (∀ p ∈ CategoryInferencer.categoryKeywordTable,
        ∀ k ∈ p.2, strContainsL k.toList (m.toList.map lowChar) = false) →
      CategoryInferencer.infer m c = "Uncategorized") := by
  constructor
  · intro m c h
    unfold CategoryInferencer.infer
    rw [if_pos h]
  · intro m c h1 h2
    unfold CategoryInferencer.infer
    rw [if_neg (by rw [h1]; decide)]
    have hf : CategoryInferencer.categoryKeywordTable.find?
        (fun p => p.2.any
          (fun k => strContainsL k.toList (m.toList.map lowChar))) = none := by
      rw [List.find?_eq_none]
      intro p hp
      simp only [List.any_eq_true, not_exists, not_and, Bool.not_eq_true]
      intro k hk
      exact h2 p hp k hk
    rw [hf]

/-- C9 witness: an explicit category is preserved verbatim, and an unknown
merchant with no explicit category falls back to the sentinel. -/
theorem c9_witness :
    CategoryInferencer.infer "Unknown Store" "Custom Category" = "Custom Category" ∧
    CategoryInferencer.infer "XYZ Unknown Merchant" "" = "Uncategorized" :=
  ⟨c9_category_inference.1 "Unknown Store" "Custom Category" (by decide),
   c9_category_inference.2 "XYZ Unknown Merchant" "" (by decide) (by decide)⟩

/-- C3: every transaction successfully produced by the parser has an amount
represented as an exact decimal with exactly two fractional digits and a
currency matching the well-formedness pattern `^[A-Z]{3}$`; and when the
amount normalizer detects no currency indicator, the currency defaults to
`"USD"`. -/
theorem c3_amount_exact_currency_wellformed :
    (∀ (stats : ParserStats) (r : Row) (n : Nat) (t : CleanTransaction)
        (stats' : ParserStats),
      parse_transaction stats r n = (some t, stats') →
      t.amount.scale = 2 ∧ currencyPatternOk t.currency = true) ∧
    (∀ s : String,
      (AmountNormalizer.currencyStage
        (AmountNormalizer.signStage (trimList s.toList)).1).2 = none →
      (AmountNormalizer.normalize s).2.1 = "USD") := by
  constructor
  · intro stats r n t stats' h
    unfold parse_transaction at h
    cases hr : parseCore r with
    | mk res k =>
      cases res with
      | ok t0 =>
        rw [hr] at h
        simp only [Prod.mk.injEq, Option.some.injEq] at h
        obtain ⟨rfl, -⟩ := h
        exact parseCore_ok_props hr
      | error e =>
        rw [hr] at h
        simp at h
  · intro s h
    simp only [AmountNormalizer.normalize]
    split
    · rfl
    · rw [h]
      split <;> rfl

/-- C3 witness: the row `goodRow` parses to `goodTxn`, whose amount has
exactly two fractional digits and whose currency is pattern-valid; and an
indicator-free amount string keeps the USD default. -/
theorem c3_witness :
    (goodTxn.amount.scale = 2 ∧ currencyPatternOk goodTxn.currency = true) ∧
    (AmountNormalizer.normalize "45.99").2.1 = "USD" :=
  ⟨c3_amount_exact_currency_wellformed.1 ⟨0, 0, 0, 0, []⟩ goodRow 2 goodTxn
      ⟨0, 1, 0, 1, []⟩ (by decide),
   c3_amount_exact_currency_wellformed.2 "45.99" (by decide)⟩

/-- C10: when the raw row validates, the date and amount normalize
successfully, and the parsed amount's absolute value exceeds 999999.99, the
clean-transaction construction rejects the value, `parse_transaction`
returns no transaction, and the row is counted and reported as a single
row-level parse failure. -/
theorem c10_amount_range_rejection (stats : ParserStats) (r : Row) (n : Nat)
    (raw : RawTransaction) (d : DateTime) (amt : Dec) (cur : String) (neg : Bool)
    (h1 : mkRawTransaction r.date r.merchant r.amount r.category = .ok raw)
    (h2 : DateNormalizer.normalize raw.date = some d)
    (h3 : AmountNormalizer.normalize raw.amount = (some amt, cur, neg))
    (h4 : |amt.toRat| > (999999.99 : ℚ)) :
    (parse_transaction stats r n).1 = none ∧
    (parse_transaction stats r n).2.failed_parses = stats.failed_parses + 1 ∧
    ∃ e, (parse_transaction stats r n).2.errors =
      stats.errors ++ ["Row " ++ toString n ++ ": " ++ e] := by
  have hint : 99999999 * 10 ^ amt.scale < |amt.units| * 100 :=
    (amountRange_iff amt).mpr h4
  obtain ⟨e, hmk⟩ := @mkClean_range_error d raw.merchant_name
    (MerchantNormalizer.normalize raw.merchant_name) amt cur
    (CategoryInferencer.infer (MerchantNormalizer.normalize raw.merchant_name)
      raw.category) neg hint
  have hcore : parseCore r = (.error e, 1) := by
    simp only [parseCore, h1, h2, h3, hmk]
  simp only [parse_transaction, hcore]
  exact ⟨by simp, by simp, e, by simp⟩

/-- C10 witness: a $1,000,000.00 row is rejected by construction and
reported as a row failure. -/
theorem c10_witness :
    (parse_transaction ⟨0, 0, 0, 0, []⟩ hugeAmountRow 2).1 = none ∧
    (parse_transaction ⟨0, 0, 0, 0, []⟩ hugeAmountRow 2).2.failed_parses = 0 + 1 ∧
    ∃ e, (parse_transaction ⟨0, 0, 0, 0, []⟩ hugeAmountRow 2).2.errors =
      [] ++ ["Row " ++ toString 2 ++ ": " ++ e] :=
  c10_amount_range_rejection ⟨0, 0, 0, 0, []⟩ hugeAmountRow 2
    ⟨"2023-01-15", "Store", "$1,000,000.00", ""⟩ ⟨2023, 1, 15, 0, 0⟩
    ⟨100000000, 2⟩ "USD" false (by decide) (by decide) (by decide)
    ((amountRange_iff ⟨100000000, 2⟩).mp (by decide))

/-- C2: every row of a batch is processed — the success and failure counts
add to the row count and an isolated bad row never aborts the run — and the
accumulated error list contains exactly one entry per failing row, each
carrying its row number (numbered from 2) and a human-readable cause,
alongside the success count. -/
theorem c2_row_failures_accumulate (rows : List Row) :
    (parse_file rows).2.total_rows = rows.length ∧
    (parse_file rows).2.successful_parses + (parse_file rows).2.failed_parses =
      rows.length ∧
    (parse_file rows).1.length = (parse_file rows).2.successful_parses ∧
    (parse_file rows).2.errors.length = (parse_file rows).2.failed_parses ∧
    (parse_file rows).2.errors = expectedErrors rows 2 ∧
    (∀ e ∈ (parse_file rows).2.errors,
      ∃ n cause, 2 ≤ n ∧ n < 2 + rows.length ∧
        e = "Row " ++ toString n ++ ": " ++ cause) := by
  have hle := List.length_filterMap_le parseOk? rows
  have hp := parseRows_eq rows { total_rows := rows.length } 2
  unfold parse_file
  rw [hp]
  refine ⟨rfl, by simp; omega, by simp, ?_, by simp, ?_⟩
  · simp only [List.nil_append]
    rw [length_expectedErrors rows 2]
    simp
  · intro e he
    simp only [List.nil_append] at he
    exact mem_expectedErrors rows 2 e he

/-- C2 witness: a batch of one good row and one bad-amount row yields one
success, one failure, and exactly one error entry naming row 3 and the
cause. -/
theorem c2_witness :
    (parse_file demoRows).2.successful_parses +
      (parse_file demoRows).2.failed_parses = 2 ∧
    (parse_file demoRows).2.errors = ["Row 3: Could not parse amount: abc"] := by
  have h := c2_row_failures_accumulate demoRows
  refine ⟨h.2.1, ?_⟩
  rw [h.2.2.2.2.1]
  decide

/-- C4: in the duplicate-detection signal, a transaction is flagged exactly
when an earlier transaction of the batch shares its (canonical merchant,
amount, calendar date) key — so the first occurrence of each group is never
flagged and a transaction with a distinct date is never flagged as a
duplicate of that group — and a flagged transaction carries severity MEDIUM
with a reason citing duplicate detection. -/
theorem c4_duplicate_signal (ts : List CleanTransaction) (i : Nat)
    (t : CleanTransaction) (h : ts[i]? = some t) :
    (TransactionAnalyzer.duplicateCandidate ts i =
        some (TransactionAnalyzer.Severity.MEDIUM, TransactionAnalyzer.dupReason) ↔
      ∃ j, j < i ∧ ∃ u, ts[j]? = some u ∧
        TransactionAnalyzer.dupKey u = TransactionAnalyzer.dupKey t) ∧
    (TransactionAnalyzer.duplicateCandidate ts i = none ↔
      ∀ j, j < i → ∀ u, ts[j]? = some u →
        TransactionAnalyzer.dupKey u ≠ TransactionAnalyzer.dupKey t) ∧
    strContainsL "duplicate".toList TransactionAnalyzer.dupReason.toList = true := by
  have key : (ts.take i).any
      (fun u => decide (TransactionAnalyzer.dupKey u = TransactionAnalyzer.dupKey t)) = true ↔
      ∃ j, j < i ∧ ∃ u, ts[j]? = some u ∧
        TransactionAnalyzer.dupKey u = TransactionAnalyzer.dupKey t := by
    rw [List.any_eq_true]
    constructor
    · rintro ⟨u, hu, hdec⟩
      obtain ⟨j, hji, hj⟩ := (mem_take_iff ts i u).mp hu
      exact ⟨j, hji, u, hj, of_decide_eq_true hdec⟩
    · rintro ⟨j, hji, u, hj, hk⟩
      exact ⟨u, (mem_take_iff ts i u).mpr ⟨j, hji, hj⟩, decide_eq_true hk⟩
  unfold TransactionAnalyzer.duplicateCandidate
  rw [h]
  cases hb : (ts.take i).any
      (fun u => decide (TransactionAnalyzer.dupKey u = TransactionAnalyzer.dupKey t)) with
  | false =>
    rw [hb] at key
    refine ⟨?_, ?_, by decide⟩
    · simp only [hb, Bool.false_eq_true, if_false]
      constructor
      · intro hc; exact absurd hc (by simp)
      · intro hex; exact absurd (key.mpr hex) (by simp)
    · simp only [hb, Bool.false_eq_true, if_false]
      constructor
      · intro _ j hj u hu hk
        exact absurd (key.mpr ⟨j, hj, u, hu, hk⟩) (by simp)
      · intro _; trivial
  | true =>
    refine ⟨?_, ?_, by decide⟩
    · simp only [hb, if_true]
      constructor
      · intro _; exact key.mp hb
      · intro _; trivial
    · simp only [hb, if_true]
      constructor
      · intro hc; exact absurd hc (by simp)
      · intro hall
        exfalso
        obtain ⟨j, hj, u, hu, hk⟩ := key.mp hb
        exact hall j hj u hu hk

/-- C4 witness: in the test batch of two identical (merchant, amount, date)
transactions and one distinct-date transaction, only the second occurrence
is flagged (MEDIUM, duplicate reason); the first occurrence and the
distinct-date transaction are not flagged. -/
theorem c4_witness :
    TransactionAnalyzer.duplicateCandidate dupBatch 1 =
      some (TransactionAnalyzer.Severity.MEDIUM, TransactionAnalyzer.dupReason) ∧
    TransactionAnalyzer.duplicateCandidate dupBatch 0 = none ∧
    TransactionAnalyzer.duplicateCandidate dupBatch 2 = none := by
  refine ⟨?_, ?_, ?_⟩
  · exact (c4_duplicate_signal dupBatch 1 dupTxn (by decide)).1.mpr
      ⟨0, Nat.zero_lt_one, dupTxn, by decide, rfl⟩
  · refine (c4_duplicate_signal dupBatch 0 dupTxn (by decide)).2.1.mpr ?_
    intro j hj u hu hk
    exact absurd hj (Nat.not_lt_zero j)
  · refine (c4_duplicate_signal dupBatch 2 otherTxn (by decide)).2.1.mpr ?_
    intro j hj u hu hk
    have h0 : dupBatch[0]? = some dupTxn := by decide
    have h1 : dupBatch[1]? = some dupTxn := by decide
    match j, hj with
    | 0, _ =>
      rw [h0] at hu
      cases hu
      exact absurd hk (by decide)
    | 1, _ =>
      rw [h1] at hu
      cases hu
      exact absurd hk (by decide)

/-- C5: in a batch whose transaction amounts are all identical (population
standard deviation zero), the statistical-outlier signal never fires — for
any threshold and any probe amount — and the analysis pass completes,
returning a batch of the same length, with no division-by-zero failure. -/
theorem c5_zero_variance_no_outlier (T : ℚ) (ts : List CleanTransaction)
    (h : ∀ a ∈ TransactionAnalyzer.amountsC ts,
      ∀ b ∈ TransactionAnalyzer.amountsC ts, a = b) :
    (∀ x : Int, TransactionAnalyzer.statOutlierCandidate T
      (TransactionAnalyzer.amountsC ts) x = none) ∧
    (TransactionAnalyzer.analyze T ts).length = ts.length := by
  constructor
  · intro x
    simp [TransactionAnalyzer.statOutlierCandidate,
      dev2_zero (TransactionAnalyzer.amountsC ts) h]
  · simp [TransactionAnalyzer.analyze]

/-- C5 witness: ten identical-amount transactions produce no firing of the
statistical-outlier signal and analysis completes on all ten. -/
theorem c5_witness :
    TransactionAnalyzer.statOutlierCandidate 3
      (TransactionAnalyzer.amountsC tenIdenticalBatch) 5000 = none ∧
    (TransactionAnalyzer.analyze 3 tenIdenticalBatch).length = 10 := by
  have h := c5_zero_variance_no_outlier 3 tenIdenticalBatch (by decide)
  exact ⟨h.1 5000, h.2⟩

/-- C1 (counterexample): the normalized-transaction schema
`CleanTransaction` of `src/src/validators.py` has no `anomaly_severity`
field — the anomaly annotation consists of the two fields `is_anomaly` and
`anomaly_reason` only, so the detector cannot set a third severity-enum
field as the claim states. -/
theorem c1_counterexample_no_anomaly_severity_field :
    "anomaly_severity" ∉ cleanTransactionFieldNames ∧
    "is_anomaly" ∈ cleanTransactionFieldNames ∧
    "anomaly_reason" ∈ cleanTransactionFieldNames := by
  decide

/-- C1 (amended): after the analyzer pass, every transaction of the batch
agrees with the corresponding input transaction on `date`, `merchant_name`,
`normalized_merchant`, `amount`, `currency`, `category` and `is_refund` —
those fields are set once by normalization and never altered — and the
AnomalyDetector changes at most the two fields `is_anomaly` and
`anomaly_reason`, either leaving both untouched or setting the flag with a
reason string (which carries the severity label). -/
theorem c1_analyzer_mutates_only_anomaly_fields (T : ℚ)
    (ts : List CleanTransaction) (i : Nat) (t' : CleanTransaction)
    (h : (TransactionAnalyzer.analyze T ts)[i]? = some t') :
    ∃ t, ts[i]? = some t ∧
      t'.date = t.date ∧ t'.merchant_name = t.merchant_name ∧
      t'.normalized_merchant = t.normalized_merchant ∧ t'.amount = t.amount ∧
      t'.currency = t.currency ∧ t'.category = t.category ∧
      t'.is_refund = t.is_refund ∧
      ((t'.is_anomaly = t.is_anomaly ∧ t'.anomaly_reason = t.anomaly_reason) ∨
        (t'.is_anomaly = true ∧ ∃ r, t'.anomaly_reason = some r)) := by
  unfold TransactionAnalyzer.analyze at h
  rw [List.getElem?_mapIdx] at h
  cases hts : ts[i]? with
  | none =>
    rw [hts] at h
    exact absurd h (by simp)
  | some t =>
    rw [hts] at h
    have ht' : TransactionAnalyzer.applyAnomaly t
        (TransactionAnalyzer.firstSome (TransactionAnalyzer.candidates T ts i t)) = t' :=
      Option.some.inj h
    refine ⟨t, rfl, ?_⟩
    subst ht'
    cases hX : TransactionAnalyzer.firstSome (TransactionAnalyzer.candidates T ts i t) with
    | none =>
      exact ⟨rfl, rfl, rfl, rfl, rfl, rfl, rfl, Or.inl ⟨rfl, rfl⟩⟩
    | some c =>
      exact ⟨rfl, rfl, rfl, rfl, rfl, rfl, rfl, Or.inr ⟨rfl, c.2, rfl⟩⟩

/-- C1 witness: on a one-transaction batch the analyzer preserves all the
normalization-set fields of the transaction. -/
theorem c1_witness :
    ∃ t, [normalTxn][0]? = some t ∧
      normalTxn.date = t.date ∧ normalTxn.merchant_name = t.merchant_name ∧
      normalTxn.normalized_merchant = t.normalized_merchant ∧
      normalTxn.amount = t.amount ∧ normalTxn.currency = t.currency ∧
      normalTxn.category = t.category ∧ normalTxn.is_refund = t.is_refund ∧
      ((normalTxn.is_anomaly = t.is_anomaly ∧
        normalTxn.anomaly_reason = t.anomaly_reason) ∨
        (normalTxn.is_anomaly = true ∧ ∃ r, normalTxn.anomaly_reason = some r)) :=
  c1_analyzer_mutates_only_anomaly_fields 3 [normalTxn] 0 normalTxn (by decide)

end SFP
